import Mathlib

/-!
# negroni-zerolog: the request-logging middleware

A shallow embedding of `middleware.go`.  The middleware talks to four
collaborators that live outside the repository: the clock behind the `timer`
interface, the `next` handler of the negroni chain, the zerolog logger, and
the `net/http` request and response writer.  Their effects are made explicit:

* a world state `σ` is threaded through the clock reads and the call of `next`;
* everything `ServeHTTP` does to a collaborator is appended to a trace of
  observations (`Obs`), in program order; a call `Info().Msg` is an emitted
  event when the level of its logger admits info;
* a panic is an outcome, not an exception.
-/

namespace NegroniZerolog

/-! ## Time -/

/-- A `time.Duration`: a signed number of nanoseconds. -/
abbrev Duration := Int

/-- A `time.Time` instant, in nanoseconds on a fixed scale. -/
abbrev Time := Int

/-- The method `Duration.Nanoseconds`: the duration as an integer nanosecond count. -/
def Duration.Nanoseconds (d : Duration) : Int := d

/-- The interface `timer`: `Now()` and `Since(t)`, each reading (and possibly
advancing) the world. -/
structure timer (σ : Type) where
  Now : σ → Time × σ
  Since : Time → σ → Duration × σ

/-! ## The zerolog logging context -/

/-- The value of a structured field, tagged by the zerolog method that wrote it. -/
inductive Value where
  | str (s : String)
  | int (n : Int)
  | int64 (n : Int)
  | dur (d : Duration)
deriving DecidableEq, Repr

/-- One key/value pair of a logging context. -/
structure Field where
  key : String
  val : Value
deriving DecidableEq, Repr

/-- A `zerolog.Level`: debug is 0, info 1, warn 2, error 3. -/
abbrev Level := Int

/-- The constant `zerolog.DebugLevel`, the level of a fresh logger. -/
def DebugLevel : Level := 0

/-- The constant `zerolog.InfoLevel`. -/
def InfoLevel : Level := 1

/-- The constant `zerolog.WarnLevel`. -/
def WarnLevel : Level := 2

/-- A `zerolog.Logger`, seen through the fields accumulated in its context and
its minimum level.  zerolog appends fields in call order and never removes or
deduplicates them. -/
structure Logger where
  context : List Field
  level : Level
deriving DecidableEq, Repr

/-- Modelled from the spec: zerolog is a library outside the repository; the
spec gives a logger a minimum severity level, and an event of level `lvl` is
written only by a logger whose minimum level is at most `lvl`. -/
def Logger.should (l : Logger) (lvl : Level) : Bool :=
  decide (l.level ≤ lvl)

/-- The call `l.Level(lvl)`: a copy of the logger with minimum level `lvl`. -/
def Logger.Level (l : Logger) (lvl : Level) : Logger :=
  { l with level := lvl }

/-- A `zerolog.Context`: the builder obtained from `Logger.With()`. -/
structure Context where
  l : Logger
deriving DecidableEq, Repr

/-- The call `l.With()`. -/
def Logger.With (l : Logger) : Context := ⟨l⟩

/-- The call `c.Logger()`. -/
def Context.Logger (c : Context) : Logger := c.l

/-- The call `c.Str(key, val)`. -/
def Context.Str (c : Context) (key val : String) : Context :=
  ⟨{ c.l with context := c.l.context ++ [⟨key, .str val⟩] }⟩

/-- The call `c.Int64(key, i)`. -/
def Context.Int64 (c : Context) (key : String) (i : Int) : Context :=
  ⟨{ c.l with context := c.l.context ++ [⟨key, .int64 i⟩] }⟩

/-- The call `c.Dur(key, d)`. -/
def Context.Dur (c : Context) (key : String) (d : Duration) : Context :=
  ⟨{ c.l with context := c.l.context ++ [⟨key, .dur d⟩] }⟩

/-- The call `c.Int(key, i)`. -/
def Context.Int (c : Context) (key : String) (i : Int) : Context :=
  ⟨{ c.l with context := c.l.context ++ [⟨key, .int i⟩] }⟩

/-! ## net/http and negroni values -/

/-- The part of `url.URL` the middleware reads. -/
structure URL where
  Path : String
deriving DecidableEq, Repr

/-- An `http.Header`: the map from stored key to values, as an association
list.  The `net/http` server stores every key in canonical form. -/
structure Header where
  entries : List (String × List String)
deriving DecidableEq, Repr

/-- The test `validHeaderFieldByte` of `net/textproto`: the characters of an
HTTP token, given by their codes (letters, digits and the fifteen marks). -/
def validHeaderFieldByte (c : Char) : Bool :=
  let n := c.toNat
  (97 ≤ n && n ≤ 122) || (65 ≤ n && n ≤ 90) || (48 ≤ n && n ≤ 57)
    || n == 33 || n == 35 || n == 36 || n == 37 || n == 38 || n == 39 || n == 42
    || n == 43 || n == 45 || n == 46 || n == 94 || n == 95 || n == 96 || n == 124
    || n == 126

/-- The rewriting loop of `canonicalMIMEHeaderKey`: a letter is put in upper
case at the start and after a hyphen, in lower case elsewhere. -/
def canonicalLoop : Bool → List Char → List Char
  | _, [] => []
  | upper, c :: cs =>
    let c1 :=
      if upper && 97 ≤ c.toNat && c.toNat ≤ 122 then Char.ofNat (c.toNat - 32)
      else if !upper && 65 ≤ c.toNat && c.toNat ≤ 90 then Char.ofNat (c.toNat + 32)
      else c
    c1 :: canonicalLoop (c1.toNat == 45) cs

/-- The func `textproto.CanonicalMIMEHeaderKey` of the Go standard library: a
key that holds a character outside the HTTP token set is returned unchanged,
any other key is rewritten by the loop ("x-real-ip" and "X-Real-IP" both
become "X-Real-Ip"). -/
def CanonicalMIMEHeaderKey (key : String) : String :=
  if key.data.all validHeaderFieldByte then String.mk (canonicalLoop true key.data)
  else key

/-- The call `h.Get(key)` of `net/http`: the first value stored under the
canonical form of `key`, and the empty string when there is none. -/
def Header.Get (h : Header) (key : String) : String :=
  match h.entries.lookup (CanonicalMIMEHeaderKey key) with
  | some (v :: _) => v
  | _ => ""

/-- The part of `http.Request` the middleware and its default hooks read. -/
structure Request where
  Method : String
  RequestURI : String
  RemoteAddr : String
  URL : URL
  Header : Header
deriving DecidableEq, Repr

/-- An `http.ResponseWriter` value: whether its dynamic type implements
`negroni.ResponseWriter`, and the status code it currently holds (what
`Status()` reports on a negroni writer). -/
structure ResponseWriter where
  isNegroni : Bool
  status : Int
deriving DecidableEq, Repr

/-- The method `Status()` of `negroni.ResponseWriter`. -/
def ResponseWriter.Status (res : ResponseWriter) : Int := res.status

/-- The writer after a handler has left status `st` in it; the dynamic type of
the interface value cannot change. -/
def ResponseWriter.withStatus (rw : ResponseWriter) (st : Int) : ResponseWriter :=
  { rw with status := st }

/-- An `http.HandlerFunc` run on a writer and a request in a world: `none` is a
panic, `some (st, w)` a normal return that leaves status `st` in the writer and
the world in `w`. -/
abbrev HandlerFunc (σ : Type) := ResponseWriter → Request → σ → Option (Int × σ)

/-- Modelled from the spec: `http.StatusText` belongs to the Go standard
library, which is not part of the repository; the table is the standard list
of HTTP reason phrases (the spec's "human-readable status text", with 404 read
as "Not Found"), and the empty string for an unknown code. -/
def StatusText (code : Int) : String :=
  if code = 100 then "Continue"
  else if code = 101 then "Switching Protocols"
  else if code = 102 then "Processing"
  else if code = 103 then "Early Hints"
  else if code = 200 then "OK"
  else if code = 201 then "Created"
  else if code = 202 then "Accepted"
  else if code = 203 then "Non-Authoritative Information"
  else if code = 204 then "No Content"
  else if code = 205 then "Reset Content"
  else if code = 206 then "Partial Content"
  else if code = 207 then "Multi-Status"
  else if code = 208 then "Already Reported"
  else if code = 226 then "IM Used"
  else if code = 300 then "Multiple Choices"
  else if code = 301 then "Moved Permanently"
  else if code = 302 then "Found"
  else if code = 303 then "See Other"
  else if code = 304 then "Not Modified"
  else if code = 305 then "Use Proxy"
  else if code = 307 then "Temporary Redirect"
  else if code = 308 then "Permanent Redirect"
  else if code = 400 then "Bad Request"
  else if code = 401 then "Unauthorized"
  else if code = 402 then "Payment Required"
  else if code = 403 then "Forbidden"
  else if code = 404 then "Not Found"
  else if code = 405 then "Method Not Allowed"
  else if code = 406 then "Not Acceptable"
  else if code = 407 then "Proxy Authentication Required"
  else if code = 408 then "Request Timeout"
  else if code = 409 then "Conflict"
  else if code = 410 then "Gone"
  else if code = 411 then "Length Required"
  else if code = 412 then "Precondition Failed"
  else if code = 413 then "Request Entity Too Large"
  else if code = 414 then "Request URI Too Long"
  else if code = 415 then "Unsupported Media Type"
  else if code = 416 then "Requested Range Not Satisfiable"
  else if code = 417 then "Expectation Failed"
  else if code = 418 then "I\x27m a teapot"
  else if code = 421 then "Misdirected Request"
  else if code = 422 then "Unprocessable Entity"
  else if code = 423 then "Locked"
  else if code = 424 then "Failed Dependency"
  else if code = 425 then "Too Early"
  else if code = 426 then "Upgrade Required"
  else if code = 428 then "Precondition Required"
  else if code = 429 then "Too Many Requests"
  else if code = 431 then "Request Header Fields Too Large"
  else if code = 451 then "Unavailable For Legal Reasons"
  else if code = 500 then "Internal Server Error"
  else if code = 501 then "Not Implemented"
  else if code = 502 then "Bad Gateway"
  else if code = 503 then "Service Unavailable"
  else if code = 504 then "Gateway Timeout"
  else if code = 505 then "HTTP Version Not Supported"
  else if code = 506 then "Variant Also Negotiates"
  else if code = 507 then "Insufficient Storage"
  else if code = 508 then "Loop Detected"
  else if code = 510 then "Not Extended"
  else if code = 511 then "Network Authentication Required"
  else ""

/-! ## The middleware -/

/-- The func type `BeforeFunc`. -/
abbrev BeforeFunc := Logger → Request → String → Logger

/-- The func type `AfterFunc`; its second argument is a `negroni.ResponseWriter`. -/
abbrev AfterFunc := Logger → ResponseWriter → Duration → String → Logger

/-- The struct `Middleware`.  The two hooks are func-typed fields and may be
nil (`none`).  `clock` is unexported and set by the constructor; it is taken
as present. -/
structure Middleware (σ : Type) where
  Logger : Logger
  Name : String
  Before : Option BeforeFunc
  After : Option AfterFunc
  logStarting : Bool
  logCompleted : Bool
  clock : timer σ
  excludeURLs : List String

/-- The func `DefaultBefore`. -/
def DefaultBefore (entry : Logger) (req : Request) (remoteAddr : String) : Logger :=
  (((entry.With.Str "request" req.RequestURI).Str "method" req.Method).Str
    "remote" remoteAddr).Logger

/-- The func `DefaultAfter`; `fmt.Sprintf("measure#%s.latency", name)` is the
concatenation of the three pieces. -/
def DefaultAfter (entry : Logger) (res : ResponseWriter) (latency : Duration)
    (name : String) : Logger :=
  ((((entry.With.Int "status" res.Status).Str "text_status" (StatusText res.Status)).Dur
    "took" latency).Int64 ("measure#" ++ name ++ ".latency") latency.Nanoseconds).Logger

/-- The func `NewMiddlewareFromLogger`; `realClock` is the `&realClock{}` value,
whose two methods read the wall clock of the world. -/
def NewMiddlewareFromLogger {σ : Type} (realClock : timer σ) (logger : Logger)
    (name : String) : Middleware σ :=
  let subLogger := (logger.With.Str "component" "negroni").Logger
  { Logger := subLogger
    Name := name
    Before := some DefaultBefore
    After := some DefaultAfter
    logStarting := true
    logCompleted := true
    clock := realClock
    excludeURLs := [] }

/-- The func `NewCustomMiddleware`; `globalLogger` is the package-level
`log.Logger` of zerolog, which the func copies and restricts to `level`. -/
def NewCustomMiddleware {σ : Type} (realClock : timer σ) (globalLogger : Logger)
    (level : Level) (name : String) : Middleware σ :=
  let subLogger := globalLogger
  let subLogger := subLogger.Level level
  NewMiddlewareFromLogger realClock subLogger name

/-- The func `NewMiddleware`. -/
def NewMiddleware {σ : Type} (realClock : timer σ) (globalLogger : Logger) : Middleware σ :=
  NewCustomMiddleware realClock globalLogger InfoLevel "web"

/-- The method `SetLogStarting`. -/
def SetLogStarting {σ : Type} (m : Middleware σ) (v : Bool) : Middleware σ :=
  { m with logStarting := v }

/-- The method `SetLogCompleted`. -/
def SetLogCompleted {σ : Type} (m : Middleware σ) (v : Bool) : Middleware σ :=
  { m with logCompleted := v }

/-- The method `ExcludeURL`: the receiver afterwards and the returned error
(`none` for nil).  `Parse` is `url.Parse` of the standard library, `Except.error`
carrying its error. -/
def ExcludeURL {σ : Type} (Parse : String → Except String URL) (m : Middleware σ)
    (u : String) : Middleware σ × Option String :=
  match Parse u with
  | .error err => (m, some err)
  | .ok _ => ({ m with excludeURLs := m.excludeURLs ++ [u] }, none)

/-- The method `ExcludedURLs`. -/
def ExcludedURLs {σ : Type} (m : Middleware σ) : List String :=
  m.excludeURLs

/-- One thing `ServeHTTP` does to a collaborator. -/
inductive Obs where
  /-- The call `m.clock.Now()`, which returned `t`. -/
  | now (t : Time)
  /-- The call `m.clock.Since(start)`, which returned `d`. -/
  | since (start : Time) (d : Duration)
  /-- The call `m.Before(entry, req, remoteAddr)`. -/
  | before (entry : Logger) (req : Request) (remoteAddr : String)
  /-- The call `m.After(entry, res, latency, name)`. -/
  | after (entry : Logger) (res : ResponseWriter) (latency : Duration) (name : String)
  /-- The call `l.Info().Msg(msg)`: an info-level event built from context `l`,
  which the logger writes when `l.should InfoLevel`. -/
  | info (l : Logger) (msg : String)
  /-- The call `next(rw, r)`. -/
  | next (rw : ResponseWriter) (r : Request)
deriving DecidableEq, Repr

/-- How a call ended. -/
inductive Outcome where
  | returned
  | panicked
deriving DecidableEq, Repr

/-- Everything a call of `ServeHTTP` leaves behind. -/
structure Result (σ : Type) where
  m : Middleware σ
  rw : ResponseWriter
  world : σ
  trace : List Obs
  outcome : Outcome

/-- The test of the loop `for _, u := range m.excludeURLs { if r.URL.Path == u ... }`:
whether some iteration takes the branch. -/
def matchesExcluded : List String → String → Bool
  | [], _ => false
  | u :: us, path => if path == u then true else matchesExcluded us path

/-- The remote address `ServeHTTP` settles on (the statements from
`remoteAddr := r.RemoteAddr` to the end of the `X-Real-IP` test). -/
def resolveRemoteAddr (r : Request) : String :=
  let remoteAddr := r.RemoteAddr
  let realIP := r.Header.Get "X-Real-IP"
  if realIP != "" then realIP else remoteAddr

/-- The per-request logger `ServeHTTP` derives from the base logger (the
statements from `sLog := m.Logger.With().Logger()` to the end of the
`X-Request-Id` test). -/
def requestLogger (base : Logger) (r : Request) : Logger :=
  let sLog := base.With.Logger
  let reqID := r.Header.Get "X-Request-Id"
  if reqID != "" then (sLog.With.Str "request_id" reqID).Logger else sLog

/-- The method `ServeHTTP`.  Calling a nil func and a failed type assertion
`rw.(negroni.ResponseWriter)` panic; a panic of `next` propagates. -/
def ServeHTTP {σ : Type} (m : Middleware σ) (rw : ResponseWriter) (r : Request)
    (next : HandlerFunc σ) (w : σ) : Result σ :=
  let m := match m.Before with
    | none => { m with Before := some DefaultBefore }
    | some _ => m
  let m := match m.After with
    | none => { m with After := some DefaultAfter }
    | some _ => m
  if matchesExcluded m.excludeURLs r.URL.Path then
    match next rw r w with
    | none => ⟨m, rw, w, [.next rw r], .panicked⟩
    | some (st, w) => ⟨m, rw.withStatus st, w, [.next rw r], .returned⟩
  else
    let (start, w) := m.clock.Now w
    let tr := [Obs.now start]
    let remoteAddr := resolveRemoteAddr r
    let sLog := requestLogger m.Logger r
    match m.Before with
    | none => ⟨m, rw, w, tr, .panicked⟩
    | some before =>
      let tr := tr ++ [.before sLog r remoteAddr]
      let sLog := before sLog r remoteAddr
      let tr := if m.logStarting then tr ++ [.info sLog "started handling request"] else tr
      let tr := tr ++ [.next rw r]
      match next rw r w with
      | none => ⟨m, rw, w, tr, .panicked⟩
      | some (st, w) =>
        let rw := rw.withStatus st
        let (latency, w) := m.clock.Since start w
        let tr := tr ++ [.since start latency]
        if !rw.isNegroni then ⟨m, rw, w, tr, .panicked⟩
        else if m.logCompleted then
          match m.After with
          | none => ⟨m, rw, w, tr, .panicked⟩
          | some after =>
            let l := after sLog rw latency m.Name
            ⟨m, rw, w,
              tr ++ [.after sLog rw latency m.Name, .info l "completed handling request"],
              .returned⟩
        else ⟨m, rw, w, tr, .returned⟩

/-! ## Sample collaborators

Concrete clocks, handlers, writers and requests on which the definitions can be
evaluated.  The world of these samples is the wall-clock reading, in
nanoseconds. -/

/-- A clock over a wall-clock world: `Now` reads it, `Since` subtracts. -/
def wallClock : timer Int :=
  { Now := fun w => (w, w)
    Since := fun t w => (w - t, w) }

/-- A fake clock whose `Now` answers `t0` and whose `Since` answers `d`. -/
def fakeClock (t0 : Time) (d : Duration) : timer Int :=
  { Now := fun w => (t0, w)
    Since := fun _ w => (d, w) }

/-- A downstream handler that takes `d` nanoseconds and answers with status `st`. -/
def respondAfter (st : Int) (d : Duration) : HandlerFunc Int :=
  fun _ _ w => some (st, w + d)

/-- A downstream handler that panics. -/
def panickingHandler : HandlerFunc Int :=
  fun _ _ _ => none

/-- A fresh `negroni.ResponseWriter`. -/
def negroniWriter : ResponseWriter := { isNegroni := true, status := 0 }

/-- A response writer whose dynamic type does not implement `negroni.ResponseWriter`. -/
def plainWriter : ResponseWriter := { isNegroni := false, status := 0 }

/-- The request `GET /orders` from 5.6.7.8, behind a proxy that sets both
headers; the keys are stored in canonical form, as the server stores them. -/
def getOrders : Request :=
  { Method := "GET"
    RequestURI := "/orders"
    RemoteAddr := "5.6.7.8"
    URL := { Path := "/orders" }
    Header := { entries := [("X-Real-Ip", ["1.2.3.4"]), ("X-Request-Id", ["abc123"])] } }

/-- The request `GET /orders` from 5.6.7.8 without any header. -/
def getOrdersBare : Request :=
  { Method := "GET"
    RequestURI := "/orders"
    RemoteAddr := "5.6.7.8"
    URL := { Path := "/orders" }
    Header := { entries := [] } }

/-- The request `GET /health` from 5.6.7.8. -/
def getHealth : Request :=
  { Method := "GET"
    RequestURI := "/health"
    RemoteAddr := "5.6.7.8"
    URL := { Path := "/health" }
    Header := { entries := [("X-Request-Id", ["abc123"])] } }

/-- A fresh logger: no field, and the level of the zero value, debug. -/
def freshLogger : Logger := { context := [], level := DebugLevel }

/-- The middleware named "svc" on a fresh base logger, with `/health` excluded. -/
def svc : Middleware Int :=
  { NewMiddlewareFromLogger wallClock freshLogger "svc" with excludeURLs := ["/health"] }

/-- The middleware `NewCustomMiddleware(zerolog.WarnLevel, "svc")` over a fresh
global logger, with `/health` excluded. -/
def svcWarn : Middleware Int :=
  { NewCustomMiddleware wallClock freshLogger WarnLevel "svc" with excludeURLs := ["/health"] }

/-- The same middleware on the fake clock with start 1000 and elapsed time 250ms. -/
def svcFake : Middleware Int :=
  { svc with clock := fakeClock 1000 250000000 }

/-- A stand-in for `url.Parse` on the two strings of the examples: like
`url.Parse` it rejects "http://[::1]:namedport" (a port that is not a number)
and reads the path "/path" off "http://ok.test/path"; on any other string it
answers with the string as the path, which `url.Parse` need not do. -/
def parseOnExamples (u : String) : Except String URL :=
  if u = "http://[::1]:namedport" then
    .error "parse \"http://[::1]:namedport\": invalid port \":namedport\" after host"
  else if u = "http://ok.test/path" then .ok { Path := "/path" }
  else .ok { Path := u }

/-- The hooks that only add fields: the context they return starts with the
context they were given. -/
def BeforeOnlyAdds (f : BeforeFunc) : Prop :=
  ∀ (l : Logger) (r : Request) (a : String), l.context <+: (f l r a).context

/-- The After hooks that only add fields. -/
def AfterOnlyAdds (f : AfterFunc) : Prop :=
  ∀ (l : Logger) (res : ResponseWriter) (d : Duration) (n : String),
    l.context <+: (f l res d n).context

/-! ## Vocabulary of the statements -/

/-- The middleware with each unset hook replaced by its default and nothing
else changed. -/
def withDefaultHooks {σ : Type} (m : Middleware σ) : Middleware σ :=
  { m with Before := some (m.Before.getD DefaultBefore),
           After := some (m.After.getD DefaultAfter) }

/-- Whether a field is keyed `request_id`. -/
def Field.isRequestID (f : Field) : Bool := f.key == "request_id"


/-- Whether an observation is a call of `next`. -/
def Obs.isNext : Obs → Bool
  | .next _ _ => true
  | _ => false

/-- Whether an observation is an info-level event with message `msg`. -/
def Obs.isInfoMsg (msg : String) : Obs → Bool
  | .info _ s => s == msg
  | _ => false

/-- Whether an observation is a call `Info().Msg`, of any message. -/
def Obs.isInfo : Obs → Bool
  | .info _ _ => true
  | _ => false

/-- Whether an observation is an info-level event with message `msg` that the
logger writes: the call `Info().Msg(msg)` on a logger whose level admits info. -/
def Obs.isEmittedMsg (msg : String) : Obs → Bool
  | .info l s => l.should InfoLevel && s == msg
  | _ => false

/-- Whether an observation is an info-level event that the logger writes. -/
def Obs.isEmitted : Obs → Bool
  | .info l _ => l.should InfoLevel
  | _ => false

/-- Whether an observation is a call of the Before or of the After hook. -/
def Obs.isHook : Obs → Bool
  | .before _ _ _ => true
  | .after _ _ _ _ => true
  | _ => false

/-- Whether an observation is a clock read, `Now` or `Since`. -/
def Obs.isClock : Obs → Bool
  | .now _ => true
  | .since _ _ => true
  | _ => false

/-! ## Lemmas on the exclusion loop -/

theorem matchesExcluded_eq_true_iff (us : List String) (path : String) :
    matchesExcluded us path = true ↔ path ∈ us := by
  induction us with
  | nil => simp [matchesExcluded]
  | cons u us ih =>
    by_cases h : path = u
    · simp [matchesExcluded, h]
    · simp [matchesExcluded, h, ih]

theorem matchesExcluded_eq_false_iff (us : List String) (path : String) :
    matchesExcluded us path = false ↔ path ∉ us := by
  rw [← matchesExcluded_eq_true_iff]
  simp

/-! ## The shape of a run of `ServeHTTP` -/

/-- The receiver after `ServeHTTP`: both hooks are set, an unset one to its default. -/
theorem ServeHTTP_m {σ : Type} (m : Middleware σ) (rw : ResponseWriter) (r : Request)
    (next : HandlerFunc σ) (w : σ) :
    (ServeHTTP m rw r next w).m =
      { m with Before := some (m.Before.getD DefaultBefore),
               After := some (m.After.getD DefaultAfter) } := by
  unfold ServeHTTP
  cases hB : m.Before <;> cases hA : m.After <;> cases m <;> simp_all <;>
    split <;> (try split) <;> (try split) <;> (try split) <;> simp_all

/-- On an excluded path the run is the call of `next` and nothing else. -/
theorem ServeHTTP_of_excluded {σ : Type} (m : Middleware σ) (rw : ResponseWriter)
    (r : Request) (next : HandlerFunc σ) (w : σ)
    (hex : matchesExcluded m.excludeURLs r.URL.Path = true) :
    (ServeHTTP m rw r next w).trace = [Obs.next rw r]
    ∧ (ServeHTTP m rw r next w).outcome =
        (if (next rw r w).isSome then Outcome.returned else Outcome.panicked)
    ∧ (ServeHTTP m rw r next w).world =
        (match next rw r w with
          | some (_, w1) => w1
          | none => w)
    ∧ (ServeHTTP m rw r next w).rw =
        (match next rw r w with
          | some (st, _) => rw.withStatus st
          | none => rw) := by
  unfold ServeHTTP
  cases hB : m.Before <;> cases hA : m.After <;> cases hn : next rw r w <;>
    simp_all

/-- The trace of a run on a path that is not excluded, in program order. -/
theorem ServeHTTP_trace_of_not_excluded {σ : Type} (m : Middleware σ) (rw : ResponseWriter)
    (r : Request) (next : HandlerFunc σ) (w : σ)
    (hne : matchesExcluded m.excludeURLs r.URL.Path = false) :
    (ServeHTTP m rw r next w).trace =
      [Obs.now (m.clock.Now w).1,
        Obs.before (requestLogger m.Logger r) r (resolveRemoteAddr r)]
      ++ (if m.logStarting then
            [Obs.info ((m.Before.getD DefaultBefore) (requestLogger m.Logger r) r
              (resolveRemoteAddr r)) "started handling request"]
          else [])
      ++ [Obs.next rw r]
      ++ (match next rw r (m.clock.Now w).2 with
          | none => []
          | some (st, w1) =>
            Obs.since (m.clock.Now w).1 (m.clock.Since (m.clock.Now w).1 w1).1
            :: (if rw.isNegroni && m.logCompleted then
                  [Obs.after
                      ((m.Before.getD DefaultBefore) (requestLogger m.Logger r) r
                        (resolveRemoteAddr r))
                      (rw.withStatus st) (m.clock.Since (m.clock.Now w).1 w1).1 m.Name,
                    Obs.info
                      ((m.After.getD DefaultAfter)
                        ((m.Before.getD DefaultBefore) (requestLogger m.Logger r) r
                          (resolveRemoteAddr r))
                        (rw.withStatus st) (m.clock.Since (m.clock.Now w).1 w1).1 m.Name)
                      "completed handling request"]
                else [])) := by
  unfold ServeHTTP
  cases hB : m.Before <;> cases hA : m.After <;>
    cases hn : next rw r (m.clock.Now w).2 <;>
    cases hs : m.logStarting <;> cases hc : m.logCompleted <;>
    cases hg : rw.isNegroni <;>
    simp_all [ResponseWriter.withStatus]

/-- The outcome of a run on a path that is not excluded: it returns exactly when
`next` returns and the writer is a `negroni.ResponseWriter`. -/
theorem ServeHTTP_outcome_of_not_excluded {σ : Type} (m : Middleware σ)
    (rw : ResponseWriter) (r : Request) (next : HandlerFunc σ) (w : σ)
    (hne : matchesExcluded m.excludeURLs r.URL.Path = false) :
    (ServeHTTP m rw r next w).outcome =
      (if (next rw r (m.clock.Now w).2).isSome && rw.isNegroni then Outcome.returned
       else Outcome.panicked) := by
  unfold ServeHTTP
  cases hB : m.Before <;> cases hA : m.After <;>
    cases hn : next rw r (m.clock.Now w).2 <;>
    cases hs : m.logStarting <;> cases hc : m.logCompleted <;>
    cases hg : rw.isNegroni <;>
    simp_all [ResponseWriter.withStatus]

/-! ## Excluded paths -/

/-- C1: for every middleware state and every request whose URL path is equal to
an entry of the exclusion list, `ServeHTTP` calls `next` exactly once, with the
same response writer and request, and does nothing else observable: the trace
is that single call, so no event is emitted, neither hook is invoked and the
clock is not read (neither `Now` nor `Since`); the world it leaves is the one
`next` left. -/
theorem ServeHTTP_excluded_only_calls_next {σ : Type} (m : Middleware σ)
    (rw : ResponseWriter) (r : Request) (next : HandlerFunc σ) (w : σ)
    (hex : r.URL.Path ∈ ExcludedURLs m) :
    (ServeHTTP m rw r next w).trace = [Obs.next rw r]
    ∧ (∀ o ∈ (ServeHTTP m rw r next w).trace,
        o.isInfo = false ∧ o.isHook = false ∧ o.isClock = false)
    ∧ (ServeHTTP m rw r next w).world =
        (match next rw r w with
          | some (_, w1) => w1
          | none => w) := by
  have hm : matchesExcluded m.excludeURLs r.URL.Path = true :=
    (matchesExcluded_eq_true_iff _ _).2 hex
  obtain ⟨ht, _, hw, _⟩ := ServeHTTP_of_excluded m rw r next w hm
  refine ⟨ht, ?_, hw⟩
  rw [ht]
  intro o ho
  rw [List.mem_singleton] at ho
  subst ho
  exact ⟨rfl, rfl, rfl⟩

theorem ServeHTTP_excluded_only_calls_next_witness :
    getHealth.URL.Path ∈ ExcludedURLs svc
    ∧ (ServeHTTP svc negroniWriter getHealth (respondAfter 200 5) 1000).trace
        = [Obs.next negroniWriter getHealth]
    ∧ (ServeHTTP svc negroniWriter getHealth (respondAfter 200 5) 1000).world = 1005 :=
  ⟨by decide,
    (ServeHTTP_excluded_only_calls_next svc negroniWriter getHealth (respondAfter 200 5) 1000
      (by decide)).1,
    (ServeHTTP_excluded_only_calls_next svc negroniWriter getHealth (respondAfter 200 5) 1000
      (by decide)).2.2⟩

/-! ## The level of the loggers of a run -/

/-- The per-request logger has the level of the base logger. -/
theorem requestLogger_level (base : Logger) (r : Request) :
    (requestLogger base r).level = base.level := by
  unfold requestLogger
  by_cases h : r.Header.Get "X-Request-Id" = "" <;>
    simp [h, Context.Logger, Context.Str, Logger.With]

/-- The default Before hook keeps the level of the logger it is given. -/
theorem DefaultBefore_level (entry : Logger) (req : Request) (remoteAddr : String) :
    (DefaultBefore entry req remoteAddr).level = entry.level := by
  simp [DefaultBefore, Context.Logger, Context.Str, Logger.With]

/-- The default After hook keeps the level of the logger it is given. -/
theorem DefaultAfter_level (entry : Logger) (res : ResponseWriter) (latency : Duration)
    (name : String) : (DefaultAfter entry res latency name).level = entry.level := by
  simp [DefaultAfter, Context.Logger, Context.Int64, Context.Dur, Context.Str,
    Context.Int, Logger.With]

/-- The logger of a middleware built by `NewCustomMiddleware` has the level asked for. -/
theorem NewCustomMiddleware_level {σ : Type} (clk : timer σ) (g : Logger) (level : Level)
    (name : String) : (NewCustomMiddleware clk g level name).Logger.level = level := by
  simp [NewCustomMiddleware, NewMiddlewareFromLogger, Logger.Level, Context.Logger,
    Context.Str, Logger.With]

/-! ## The two events -/

/-- C2 (as stated, refuted): the middleware `NewCustomMiddleware(WarnLevel, "svc")`
has the default hooks and log-starting enabled, the path of `GET /orders` is not
excluded and `next` is called, yet no event is emitted: the calls `Info().Msg`
are made on a logger of level warn, which writes nothing at info level. -/
theorem ServeHTTP_started_event_counterexample :
    getOrders.URL.Path ∉ ExcludedURLs svcWarn
    ∧ svcWarn.logStarting = true
    ∧ svcWarn.Before = some DefaultBefore
    ∧ svcWarn.Logger.level = WarnLevel
    ∧ Obs.next negroniWriter getOrders
        ∈ (ServeHTTP svcWarn negroniWriter getOrders (respondAfter 404 250000000) 1000).trace
    ∧ (ServeHTTP svcWarn negroniWriter getOrders (respondAfter 404 250000000) 1000).trace.countP
        (Obs.isEmittedMsg "started handling request") = 0
    ∧ (ServeHTTP svcWarn negroniWriter getOrders (respondAfter 404 250000000) 1000).trace.countP
        Obs.isEmitted = 0 :=
  ⟨by decide, rfl, rfl, by decide, by decide, by decide, by decide⟩

/-- C2 (amended): for every request whose path matches no entry of the exclusion
list, `ServeHTTP` calls `next` exactly once (the trace splits around that single
call); the part of the trace before the call holds exactly one emitted
info-level event "started handling request" when log-starting is enabled and
the level of the logger returned by the Before hook admits info, and none
otherwise; no such event follows the call.  The call `Info().Msg` itself is
made exactly once before `next` when log-starting is enabled and not at all
when it is disabled; with both flags disabled no such call is made.  With the
default Before hook the level that decides is the level of the middleware's
logger. -/
theorem ServeHTTP_started_event_emitted {σ : Type} (m : Middleware σ)
    (rw : ResponseWriter) (r : Request) (next : HandlerFunc σ) (w : σ)
    (hne : r.URL.Path ∉ ExcludedURLs m) :
    ∃ pre post : List Obs,
      (ServeHTTP m rw r next w).trace = pre ++ Obs.next rw r :: post
      ∧ (∀ o ∈ pre, o.isNext = false) ∧ (∀ o ∈ post, o.isNext = false)
      ∧ pre.countP (Obs.isEmittedMsg "started handling request")
          = (if m.logStarting
                && ((m.Before.getD DefaultBefore) (requestLogger m.Logger r) r
                      (resolveRemoteAddr r)).should InfoLevel
             then 1 else 0)
      ∧ post.countP (Obs.isEmittedMsg "started handling request") = 0
      ∧ pre.countP (Obs.isInfoMsg "started handling request")
          = (if m.logStarting then 1 else 0)
      ∧ post.countP (Obs.isInfoMsg "started handling request") = 0
      ∧ (m.logStarting = false → m.logCompleted = false →
          ∀ o ∈ (ServeHTTP m rw r next w).trace, o.isInfo = false)
      ∧ ((m.Before = some DefaultBefore ∨ m.Before = none) →
          ((m.Before.getD DefaultBefore) (requestLogger m.Logger r) r
            (resolveRemoteAddr r)).should InfoLevel = decide (m.Logger.level ≤ InfoLevel)) := by
  have hm : matchesExcluded m.excludeURLs r.URL.Path = false :=
    (matchesExcluded_eq_false_iff _ _).2 hne
  have ht := ServeHTTP_trace_of_not_excluded m rw r next w hm
  refine ⟨_, _, by rw [ht, List.append_assoc, List.singleton_append],
    ?_, ?_, ?_, ?_, ?_, ?_, ?_, ?_⟩
  · cases m.logStarting <;> simp [Obs.isNext]
  · cases next rw r (m.clock.Now w).2 <;> cases rw.isNegroni <;> cases m.logCompleted <;>
      simp [Obs.isNext]
  · cases m.logStarting <;>
      cases hl : ((m.Before.getD DefaultBefore) (requestLogger m.Logger r) r
        (resolveRemoteAddr r)).should InfoLevel <;>
      simp [Obs.isEmittedMsg, List.countP_cons, hl]
  · cases next rw r (m.clock.Now w).2 <;> cases rw.isNegroni <;> cases m.logCompleted <;>
      simp [Obs.isEmittedMsg, List.countP_cons]
  · cases m.logStarting <;> simp [Obs.isInfoMsg, List.countP_cons]
  · cases next rw r (m.clock.Now w).2 <;> cases rw.isNegroni <;> cases m.logCompleted <;>
      simp [Obs.isInfoMsg, List.countP_cons]
  · intro hs hc
    rw [ht, hs, hc]
    cases next rw r (m.clock.Now w).2 <;> simp [Obs.isInfo]
  · intro hB
    have hB2 : m.Before.getD DefaultBefore = DefaultBefore := by
      rcases hB with h | h <;> simp [h]
    rw [hB2]
    simp [Logger.should, DefaultBefore_level, requestLogger_level]

theorem ServeHTTP_started_event_emitted_witness :
    getOrders.URL.Path ∉ ExcludedURLs svc
    ∧ ∃ pre post : List Obs,
      (ServeHTTP svc negroniWriter getOrders (respondAfter 404 250000000) 1000).trace
        = pre ++ Obs.next negroniWriter getOrders :: post
      ∧ (∀ o ∈ pre, o.isNext = false) ∧ (∀ o ∈ post, o.isNext = false)
      ∧ pre.countP (Obs.isEmittedMsg "started handling request") = 1
      ∧ post.countP (Obs.isEmittedMsg "started handling request") = 0 :=
  ⟨by decide,
    match ServeHTTP_started_event_emitted svc negroniWriter getOrders
      (respondAfter 404 250000000) 1000 (by decide) with
    | ⟨pre, post, h1, h2, h3, h4, h5, _⟩ => ⟨pre, post, h1, h2, h3, h4, h5⟩⟩

/-- C3 (as stated, refuted): the middleware "svc" has log-completed enabled and
the default After hook, the path of `GET /orders` is not excluded and `next`
returns; handed a response writer that is not a `negroni.ResponseWriter`,
`ServeHTTP` panics on the type assertion and never calls `Info().Msg` with
"completed handling request".  On the negroni writer, the warn-level middleware
makes the call and no event is emitted. -/
theorem ServeHTTP_completed_event_counterexample :
    getOrders.URL.Path ∉ ExcludedURLs svc
    ∧ svc.logCompleted = true
    ∧ svc.After = some DefaultAfter
    ∧ (respondAfter 404 250000000 plainWriter getOrders (svc.clock.Now 1000).2).isSome = true
    ∧ (ServeHTTP svc plainWriter getOrders (respondAfter 404 250000000) 1000).trace.countP
        (Obs.isInfoMsg "completed handling request") = 0
    ∧ (ServeHTTP svc plainWriter getOrders (respondAfter 404 250000000) 1000).outcome
        = Outcome.panicked
    ∧ svcWarn.logCompleted = true
    ∧ svcWarn.After = some DefaultAfter
    ∧ (ServeHTTP svcWarn negroniWriter getOrders (respondAfter 404 250000000) 1000).trace.countP
        (Obs.isEmittedMsg "completed handling request") = 0 :=
  ⟨by decide, rfl, rfl, by decide, by decide, by decide, rfl, rfl, by decide⟩

/-- C3 (amended): for every request whose path matches no entry of the exclusion
list: when log-completed is disabled no call `Info().Msg` with "completed
handling request" is made, so no such event is emitted; when it is enabled, the
After hook is the default one, the writer is a `negroni.ResponseWriter` and
`next` has returned, the trace is a part `pre` that holds the read
`Now() = start` and no completed event, then the call of `next`, then the read
`Since(start) = d`, the call of the After hook and exactly one call `Info().Msg`
with "completed handling request", on the context `DefaultAfter` builds, which
carries `took = d`; that call is an emitted event, the only one with this
message, exactly when the level of the logger returned by the Before hook
admits info. -/
theorem ServeHTTP_completed_event_emitted {σ : Type} (m : Middleware σ)
    (rw : ResponseWriter) (r : Request) (next : HandlerFunc σ) (w : σ)
    (hne : r.URL.Path ∉ ExcludedURLs m) :
    (m.logCompleted = false →
      ∀ o ∈ (ServeHTTP m rw r next w).trace,
        o.isInfoMsg "completed handling request" = false
        ∧ o.isEmittedMsg "completed handling request" = false)
    ∧ (m.logCompleted = true → (m.After = some DefaultAfter ∨ m.After = none) →
        rw.isNegroni = true →
        ∀ (st : Int) (w1 : σ), next rw r (m.clock.Now w).2 = some (st, w1) →
        ∃ (pre : List Obs) (entry : Logger),
          entry = (m.Before.getD DefaultBefore) (requestLogger m.Logger r) r
            (resolveRemoteAddr r)
          ∧ (ServeHTTP m rw r next w).trace =
            pre ++ [Obs.next rw r,
              Obs.since (m.clock.Now w).1 (m.clock.Since (m.clock.Now w).1 w1).1,
              Obs.after entry (rw.withStatus st)
                (m.clock.Since (m.clock.Now w).1 w1).1 m.Name,
              Obs.info (DefaultAfter entry (rw.withStatus st)
                (m.clock.Since (m.clock.Now w).1 w1).1 m.Name)
                "completed handling request"]
          ∧ Obs.now (m.clock.Now w).1 ∈ pre
          ∧ (∀ o ∈ pre, o.isNext = false ∧ o.isInfoMsg "completed handling request" = false)
          ∧ (ServeHTTP m rw r next w).trace.countP
              (Obs.isInfoMsg "completed handling request") = 1
          ∧ (ServeHTTP m rw r next w).trace.countP
              (Obs.isEmittedMsg "completed handling request")
              = (if entry.should InfoLevel then 1 else 0)
          ∧ (⟨"took", Value.dur (m.clock.Since (m.clock.Now w).1 w1).1⟩ : Field) ∈
              (DefaultAfter entry (rw.withStatus st)
                (m.clock.Since (m.clock.Now w).1 w1).1 m.Name).context) := by
  have hm : matchesExcluded m.excludeURLs r.URL.Path = false :=
    (matchesExcluded_eq_false_iff _ _).2 hne
  have ht := ServeHTTP_trace_of_not_excluded m rw r next w hm
  constructor
  · intro hc
    rw [ht, hc]
    cases next rw r (m.clock.Now w).2 <;> cases m.logStarting <;>
      simp [Obs.isInfoMsg, Obs.isEmittedMsg]
  · intro hc hA hg st w1 hn
    have hA2 : m.After.getD DefaultAfter = DefaultAfter := by
      rcases hA with h | h <;> simp [h]
    refine ⟨[Obs.now (m.clock.Now w).1,
        Obs.before (requestLogger m.Logger r) r (resolveRemoteAddr r)]
        ++ (if m.logStarting then
              [Obs.info ((m.Before.getD DefaultBefore) (requestLogger m.Logger r) r
                (resolveRemoteAddr r)) "started handling request"]
            else []),
      (m.Before.getD DefaultBefore) (requestLogger m.Logger r) r
        (resolveRemoteAddr r), rfl, ?_, ?_, ?_, ?_, ?_, ?_⟩
    · rw [ht, hn, hc, hg, hA2]
      simp
    · simp
    · cases m.logStarting <;> simp [Obs.isNext, Obs.isInfoMsg]
    · rw [ht, hn, hc, hg]
      cases m.logStarting <;> simp [Obs.isInfoMsg, List.countP_cons]
    · rw [ht, hn, hc, hg, hA2]
      cases m.logStarting <;>
        cases hl : ((m.Before.getD DefaultBefore) (requestLogger m.Logger r) r
          (resolveRemoteAddr r)).should InfoLevel <;>
        simp [Obs.isEmittedMsg, List.countP_cons, Logger.should, DefaultAfter_level] <;>
        simpa [Logger.should] using hl
    · simp [DefaultAfter, Context.Logger, Context.Int64, Context.Dur, Context.Str,
        Context.Int, Logger.With]

theorem ServeHTTP_completed_event_emitted_witness :
    getOrders.URL.Path ∉ ExcludedURLs svc
    ∧ svc.logCompleted = true
    ∧ negroniWriter.isNegroni = true
    ∧ respondAfter 404 250000000 negroniWriter getOrders (svc.clock.Now 1000).2
        = some (404, 250001000)
    ∧ (ServeHTTP svc negroniWriter getOrders (respondAfter 404 250000000) 1000).trace.countP
        (Obs.isInfoMsg "completed handling request") = 1
    ∧ (ServeHTTP svc negroniWriter getOrders (respondAfter 404 250000000) 1000).trace.countP
        (Obs.isEmittedMsg "completed handling request") = 1 := by
  refine ⟨by decide, rfl, rfl, by decide, ?_, ?_⟩
  · obtain ⟨_, _, _, _, _, _, h, _⟩ :=
      (ServeHTTP_completed_event_emitted svc negroniWriter getOrders
        (respondAfter 404 250000000) 1000 (by decide)).2 (by decide) (Or.inl rfl) (by decide)
        404 250001000 (by decide)
    exact h
  · obtain ⟨_, entry, he, _, _, _, _, h, _⟩ :=
      (ServeHTTP_completed_event_emitted svc negroniWriter getOrders
        (respondAfter 404 250000000) 1000 (by decide)).2 (by decide) (Or.inl rfl) (by decide)
        404 250001000 (by decide)
    rw [h, he]
    decide

/-! ## The context handed to the After hook -/

/-- C4 (as stated, refuted): on `GET /orders` with log-completed enabled the
context handed to the After hook is not the per-request context built before
the Before hook ran: it is the context `DefaultBefore` returned, and the fields
`request`, `method` and `remote` are in the "completed handling request" event. -/
theorem ServeHTTP_after_gets_prehook_context_counterexample :
    getOrders.URL.Path ∉ ExcludedURLs svc ∧ svc.logCompleted = true
    ∧ Obs.after
        (DefaultBefore (requestLogger svc.Logger getOrders) getOrders "1.2.3.4")
        { isNegroni := true, status := 404 } 250000000 "svc"
        ∈ (ServeHTTP svc negroniWriter getOrders (respondAfter 404 250000000) 1000).trace
    ∧ Obs.after (requestLogger svc.Logger getOrders)
        { isNegroni := true, status := 404 } 250000000 "svc"
        ∉ (ServeHTTP svc negroniWriter getOrders (respondAfter 404 250000000) 1000).trace
    ∧ DefaultBefore (requestLogger svc.Logger getOrders) getOrders "1.2.3.4"
        ≠ requestLogger svc.Logger getOrders
    ∧ ∃ l : Logger,
        Obs.info l "completed handling request"
          ∈ (ServeHTTP svc negroniWriter getOrders (respondAfter 404 250000000) 1000).trace
        ∧ (⟨"request", Value.str "/orders"⟩ : Field) ∈ l.context
        ∧ (⟨"method", Value.str "GET"⟩ : Field) ∈ l.context
        ∧ (⟨"remote", Value.str "1.2.3.4"⟩ : Field) ∈ l.context := by
  refine ⟨by decide, by decide, by decide, by decide, by decide,
    DefaultAfter (DefaultBefore (requestLogger svc.Logger getOrders) getOrders "1.2.3.4")
      { isNegroni := true, status := 404 } 250000000 "svc", ?_, ?_, ?_, ?_⟩ <;> decide

/-- C4 (amended): for every request whose path is not excluded, every call of
the After hook receives the context that the Before hook returned, the Before
hook having been called on the per-request context (the base logger plus
`request_id` when the header is set) with the request and the resolved remote
address; with log-completed enabled, a `negroni.ResponseWriter` and a `next`
that returns, that call of the After hook takes place.  Hence with the default
Before hook the fields `request`, `method` and `remote` are in the context
handed to the After hook, and an After hook that only adds fields (the default
one does) keeps them in the "completed handling request" event. -/
theorem ServeHTTP_after_gets_before_result {σ : Type} (m : Middleware σ)
    (rw : ResponseWriter) (r : Request) (next : HandlerFunc σ) (w : σ)
    (hne : r.URL.Path ∉ ExcludedURLs m) :
    (∀ (entry : Logger) (res : ResponseWriter) (d : Duration) (n : String),
        Obs.after entry res d n ∈ (ServeHTTP m rw r next w).trace →
        entry = (m.Before.getD DefaultBefore) (requestLogger m.Logger r) r
          (resolveRemoteAddr r))
    ∧ (m.logCompleted = true → rw.isNegroni = true →
        ∀ (st : Int) (w1 : σ), next rw r (m.clock.Now w).2 = some (st, w1) →
        Obs.after
            ((m.Before.getD DefaultBefore) (requestLogger m.Logger r) r (resolveRemoteAddr r))
            (rw.withStatus st) (m.clock.Since (m.clock.Now w).1 w1).1 m.Name
          ∈ (ServeHTTP m rw r next w).trace
        ∧ Obs.info
            ((m.After.getD DefaultAfter)
              ((m.Before.getD DefaultBefore) (requestLogger m.Logger r) r
                (resolveRemoteAddr r))
              (rw.withStatus st) (m.clock.Since (m.clock.Now w).1 w1).1 m.Name)
            "completed handling request"
          ∈ (ServeHTTP m rw r next w).trace)
    ∧ ((m.Before = some DefaultBefore ∨ m.Before = none) →
        AfterOnlyAdds (m.After.getD DefaultAfter) →
        ∀ l : Logger,
          Obs.info l "completed handling request" ∈ (ServeHTTP m rw r next w).trace →
          (⟨"request", Value.str r.RequestURI⟩ : Field) ∈ l.context
          ∧ (⟨"method", Value.str r.Method⟩ : Field) ∈ l.context
          ∧ (⟨"remote", Value.str (resolveRemoteAddr r)⟩ : Field) ∈ l.context)
    ∧ AfterOnlyAdds DefaultAfter := by
  have hm : matchesExcluded m.excludeURLs r.URL.Path = false :=
    (matchesExcluded_eq_false_iff _ _).2 hne
  have ht := ServeHTTP_trace_of_not_excluded m rw r next w hm
  refine ⟨?_, ?_, ?_, ?_⟩
  · intro entry res d n
    rw [ht]
    cases next rw r (m.clock.Now w).2 <;> cases m.logStarting <;>
      cases rw.isNegroni <;> cases m.logCompleted <;> simp <;> intros <;> assumption
  · intro hc hg st w1 hn
    rw [ht, hn, hc, hg]
    simp
  · intro hB hA l
    have hB2 : m.Before.getD DefaultBefore = DefaultBefore := by
      rcases hB with h | h <;> simp [h]
    rw [ht, hB2]
    intro hl
    have key : ∃ (res : ResponseWriter) (d : Duration),
        l = (m.After.getD DefaultAfter)
          (DefaultBefore (requestLogger m.Logger r) r (resolveRemoteAddr r)) res d m.Name := by
      cases hn : next rw r (m.clock.Now w).2 <;> cases hs : m.logStarting <;>
        cases hg : rw.isNegroni <;> cases hc : m.logCompleted <;>
        simp [hn, hs, hg, hc] at hl <;> exact ⟨_, _, hl⟩
    obtain ⟨res, d, rfl⟩ := key
    have hsub := (hA (DefaultBefore (requestLogger m.Logger r) r (resolveRemoteAddr r))
      res d m.Name).subset
    refine ⟨hsub ?_, hsub ?_, hsub ?_⟩ <;>
      simp [DefaultBefore, Context.Logger, Context.Str, Logger.With]
  · intro l res d n
    simp [DefaultAfter, Context.Logger, Context.Int64, Context.Dur, Context.Str,
      Context.Int, Logger.With]

theorem ServeHTTP_after_gets_before_result_witness :
    getOrders.URL.Path ∉ ExcludedURLs svc
    ∧ Obs.after
        (DefaultBefore (requestLogger svc.Logger getOrders) getOrders
          (resolveRemoteAddr getOrders))
        (negroniWriter.withStatus 404) 250000000 "svc"
      ∈ (ServeHTTP svc negroniWriter getOrders (respondAfter 404 250000000) 1000).trace :=
  ⟨by decide,
    ((ServeHTTP_after_gets_before_result svc negroniWriter getOrders
      (respondAfter 404 250000000) 1000 (by decide)).2.1 (by decide) (by decide) 404 250001000
      (by decide)).1⟩

/-! ## The exclusion list -/

/-- C5: for every middleware state and every string `u`, `ExcludeURL(u)` returns
an error exactly when parsing `u` as a URL fails, and the error is the parser's;
when it succeeds the list `ExcludedURLs()` afterwards is the previous list with
`u` appended as its last element, nothing else of the middleware having
changed; when it fails the middleware, its exclusion list included, is
unchanged. -/
theorem ExcludeURL_appends_or_fails {σ : Type} (Parse : String → Except String URL)
    (m : Middleware σ) (u : String) :
    (∀ e : String, (ExcludeURL Parse m u).2 = some e ↔ Parse u = .error e)
    ∧ ((ExcludeURL Parse m u).2 = none ↔ ∃ v : URL, Parse u = .ok v)
    ∧ ((ExcludeURL Parse m u).2 = none →
        ExcludedURLs (ExcludeURL Parse m u).1 = ExcludedURLs m ++ [u]
        ∧ (ExcludeURL Parse m u).1 = { m with excludeURLs := m.excludeURLs ++ [u] })
    ∧ ((ExcludeURL Parse m u).2 ≠ none →
        (ExcludeURL Parse m u).1 = m
        ∧ ExcludedURLs (ExcludeURL Parse m u).1 = ExcludedURLs m) := by
  unfold ExcludeURL ExcludedURLs
  cases h : Parse u <;> simp

theorem ExcludeURL_appends_or_fails_witness :
    (ExcludeURL parseOnExamples svc "http://ok.test/path").2 = none
    ∧ ExcludedURLs (ExcludeURL parseOnExamples svc "http://ok.test/path").1
        = ["/health", "http://ok.test/path"]
    ∧ (ExcludeURL parseOnExamples svc "http://[::1]:namedport").2 ≠ none
    ∧ ExcludedURLs (ExcludeURL parseOnExamples svc "http://[::1]:namedport").1
        = ["/health"] :=
  ⟨by decide,
    ((ExcludeURL_appends_or_fails parseOnExamples svc "http://ok.test/path").2.2.1
      (by decide)).1,
    by decide,
    ((ExcludeURL_appends_or_fails parseOnExamples svc "http://[::1]:namedport").2.2.2
      (by decide)).2⟩

/-! ## The default After hook -/

/-- C6: for every logging context, response status `s`, duration `d` and name
`n`, `DefaultAfter` returns the context extended with exactly four fields, in
this order: `status` = `s`, `text_status` = the HTTP status text of `s`,
`took` = `d`, and the field named "measure#" ++ n ++ ".latency" holding `d` as
an integer number of nanoseconds.  For `n` = "svc", `s` = 404 and `d` = 250ms
these are status=404, text_status="Not Found", took=250ms and
measure#svc.latency=250000000, and this is what the "completed handling
request" event of a `GET /orders` answered with 404 carries when the fake clock
reports 250ms. -/
theorem DefaultAfter_fields :
    (∀ (entry : Logger) (res : ResponseWriter) (d : Duration) (n : String),
      (DefaultAfter entry res d n).context =
        entry.context ++
          [⟨"status", Value.int res.Status⟩,
            ⟨"text_status", Value.str (StatusText res.Status)⟩,
            ⟨"took", Value.dur d⟩,
            ⟨"measure#" ++ n ++ ".latency", Value.int64 d.Nanoseconds⟩])
    ∧ (∀ d : Duration, d.Nanoseconds = d)
    ∧ (∀ (entry : Logger) (negroni : Bool),
      (DefaultAfter entry { isNegroni := negroni, status := 404 } 250000000 "svc").context =
        entry.context ++
          [⟨"status", Value.int 404⟩,
            ⟨"text_status", Value.str "Not Found"⟩,
            ⟨"took", Value.dur 250000000⟩,
            ⟨"measure#svc.latency", Value.int64 250000000⟩])
    ∧ (∃ l : Logger,
        Obs.info l "completed handling request"
          ∈ (ServeHTTP svcFake negroniWriter getOrdersBare (respondAfter 404 7) 1000).trace
        ∧ l.context.drop (l.context.length - 4) =
            [⟨"status", Value.int 404⟩,
              ⟨"text_status", Value.str "Not Found"⟩,
              ⟨"took", Value.dur 250000000⟩,
              ⟨"measure#svc.latency", Value.int64 250000000⟩]) := by
  refine ⟨?_, ?_, ?_, ?_⟩
  · intro entry res d n
    simp [DefaultAfter, Context.Logger, Context.Int64, Context.Dur, Context.Str,
      Context.Int, Logger.With]
  · intro d
    rfl
  · intro entry negroni
    simp [DefaultAfter, Context.Logger, Context.Int64, Context.Dur, Context.Str,
      Context.Int, Logger.With, ResponseWriter.Status, StatusText, Duration.Nanoseconds]
  · refine ⟨DefaultAfter
      (DefaultBefore (requestLogger svcFake.Logger getOrdersBare) getOrdersBare "5.6.7.8")
      { isNegroni := true, status := 404 } 250000000 "svc", ?_, ?_⟩ <;> decide

/-! ## Unset hooks -/

/-- A run on a middleware with unset hooks is the run on the middleware with the
defaults filled in. -/
theorem ServeHTTP_eq_withDefaultHooks {σ : Type} (m : Middleware σ)
    (rw : ResponseWriter) (r : Request) (next : HandlerFunc σ) (w : σ) :
    ServeHTTP m rw r next w = ServeHTTP (withDefaultHooks m) rw r next w := by
  obtain ⟨L, N, B, A, ls, lc, clk, ex⟩ := m
  cases B <;> cases A <;> rfl

/-- C10: for every request and every middleware, `ServeHTTP` produces the same
trace (the same events and the same calls of `next`), the same outcome, writer
and world as it does on the same middleware with each unset hook replaced by
`DefaultBefore` / `DefaultAfter`; after the call the receiver is that
middleware, so a hook that was unset is set to its default and one that was set
is kept.  In particular a middleware built by `NewMiddlewareFromLogger` whose
hooks were then cleared is, after one call, the middleware as built. -/
theorem ServeHTTP_unset_hooks_are_defaults {σ : Type} (m : Middleware σ)
    (rw : ResponseWriter) (r : Request) (next : HandlerFunc σ) (w : σ) :
    (ServeHTTP m rw r next w).trace = (ServeHTTP (withDefaultHooks m) rw r next w).trace
    ∧ (ServeHTTP m rw r next w).outcome = (ServeHTTP (withDefaultHooks m) rw r next w).outcome
    ∧ (ServeHTTP m rw r next w).rw = (ServeHTTP (withDefaultHooks m) rw r next w).rw
    ∧ (ServeHTTP m rw r next w).world = (ServeHTTP (withDefaultHooks m) rw r next w).world
    ∧ (ServeHTTP m rw r next w).m = withDefaultHooks m
    ∧ (m.Before = none → (ServeHTTP m rw r next w).m.Before = some DefaultBefore)
    ∧ (m.After = none → (ServeHTTP m rw r next w).m.After = some DefaultAfter)
    ∧ (∀ f : BeforeFunc, m.Before = some f → (ServeHTTP m rw r next w).m.Before = some f)
    ∧ (∀ f : AfterFunc, m.After = some f → (ServeHTTP m rw r next w).m.After = some f)
    ∧ (∀ (clk : timer σ) (l : Logger) (n : String),
        (ServeHTTP { NewMiddlewareFromLogger clk l n with Before := none, After := none }
          rw r next w).m = NewMiddlewareFromLogger clk l n) := by
  have hm := ServeHTTP_m m rw r next w
  refine ⟨?_, ?_, ?_, ?_, hm, ?_, ?_, ?_, ?_, ?_⟩
  · rw [ServeHTTP_eq_withDefaultHooks]
  · rw [ServeHTTP_eq_withDefaultHooks]
  · rw [ServeHTTP_eq_withDefaultHooks]
  · rw [ServeHTTP_eq_withDefaultHooks]
  · intro h
    rw [hm]
    simp [h]
  · intro h
    rw [hm]
    simp [h]
  · intro f h
    rw [hm]
    simp [h]
  · intro f h
    rw [hm]
    simp [h]
  · intro clk l n
    rw [ServeHTTP_m]
    simp [NewMiddlewareFromLogger]

theorem ServeHTTP_unset_hooks_are_defaults_witness :
    ({ svc with Before := none, After := none } : Middleware Int).Before = none
    ∧ (ServeHTTP { svc with Before := none, After := none } negroniWriter getOrders
        (respondAfter 404 250000000) 1000).m.Before = some DefaultBefore
    ∧ (ServeHTTP { svc with Before := none, After := none } negroniWriter getOrders
        (respondAfter 404 250000000) 1000).trace
      = (ServeHTTP svc negroniWriter getOrders (respondAfter 404 250000000) 1000).trace :=
  ⟨rfl,
    (ServeHTTP_unset_hooks_are_defaults { svc with Before := none, After := none }
      negroniWriter getOrders (respondAfter 404 250000000) 1000).2.2.2.2.2.1 rfl,
    (ServeHTTP_unset_hooks_are_defaults { svc with Before := none, After := none }
      negroniWriter getOrders (respondAfter 404 250000000) 1000).1⟩

/-! ## The request identifier and the remote address -/

/-- The latency key of `DefaultAfter` is never the key `request_id`. -/
theorem measureKey_ne_request_id (n : String) :
    ("measure#" ++ n ++ ".latency" == "request_id") = false := by
  rw [beq_eq_false_iff_ne]
  intro h
  have h2 := congrArg (fun s : String => s.data.head?) h
  simp [String.data_append] at h2

/-- The default Before hook only adds fields. -/
theorem DefaultBefore_onlyAdds : BeforeOnlyAdds DefaultBefore := by
  intro l r a
  simp [DefaultBefore, Context.Logger, Context.Str, Logger.With]

/-- The default After hook only adds fields. -/
theorem DefaultAfter_onlyAdds : AfterOnlyAdds DefaultAfter := by
  intro l res d n
  simp [DefaultAfter, Context.Logger, Context.Int64, Context.Dur, Context.Str,
    Context.Int, Logger.With]

/-- Every event of a run on a path that is not excluded is built from a context
that extends the per-request context, when the hooks only add fields. -/
theorem ServeHTTP_info_extends_requestLogger {σ : Type} (m : Middleware σ)
    (rw : ResponseWriter) (r : Request) (next : HandlerFunc σ) (w : σ)
    (hne : r.URL.Path ∉ ExcludedURLs m)
    (hB : BeforeOnlyAdds (m.Before.getD DefaultBefore))
    (hA : AfterOnlyAdds (m.After.getD DefaultAfter))
    (l : Logger) (msg : String)
    (hl : Obs.info l msg ∈ (ServeHTTP m rw r next w).trace) :
    (requestLogger m.Logger r).context <+: l.context := by
  have hm : matchesExcluded m.excludeURLs r.URL.Path = false :=
    (matchesExcluded_eq_false_iff _ _).2 hne
  rw [ServeHTTP_trace_of_not_excluded m rw r next w hm] at hl
  have h1 := hB (requestLogger m.Logger r) r (resolveRemoteAddr r)
  have key : l = (m.Before.getD DefaultBefore) (requestLogger m.Logger r) r
        (resolveRemoteAddr r)
      ∨ ∃ (res : ResponseWriter) (d : Duration),
        l = (m.After.getD DefaultAfter)
          ((m.Before.getD DefaultBefore) (requestLogger m.Logger r) r (resolveRemoteAddr r))
          res d m.Name := by
    cases hn : next rw r (m.clock.Now w).2 <;> cases hs : m.logStarting <;>
      cases hg : rw.isNegroni <;> cases hc : m.logCompleted <;>
      simp [hn, hs, hg, hc] at hl <;>
      first
        | exact Or.inl hl.1
        | exact Or.inr ⟨_, _, hl.1⟩
        | exact hl.elim (fun h => Or.inl h.1) (fun h => Or.inr ⟨_, _, h.1⟩)
  rcases key with h | ⟨res, d, h⟩
  · rw [h]
    exact h1
  · rw [h]
    exact h1.trans (hA _ _ _ _)

/-- The context of the per-request logger: the base context, followed by the
field `request_id` when the header `X-Request-Id` holds a non-empty value. -/
theorem requestLogger_context (base : Logger) (r : Request) :
    (requestLogger base r).context =
      base.context ++
        (if r.Header.Get "X-Request-Id" = "" then []
         else [⟨"request_id", Value.str (r.Header.Get "X-Request-Id")⟩]) := by
  unfold requestLogger
  by_cases h : r.Header.Get "X-Request-Id" = "" <;>
    simp [h, Context.Logger, Context.Str, Logger.With]

/-- C7: for every request whose path is not excluded, handled with hooks that
only add fields (the default hooks do): when the header `X-Request-Id` holds a
non-empty value, every event emitted by `ServeHTTP` carries the field
`request_id` with that value; the context `ServeHTTP` hands to the Before hook
is the base context followed by that field, and is the base context alone when
the header is absent or empty, so that `ServeHTTP` adds no `request_id` then.
With the default hooks every emitted event holds as many `request_id` fields as
the base logger does, plus one exactly when the header holds a non-empty
value. -/
theorem ServeHTTP_request_id_field {σ : Type} (m : Middleware σ)
    (rw : ResponseWriter) (r : Request) (next : HandlerFunc σ) (w : σ)
    (hne : r.URL.Path ∉ ExcludedURLs m)
    (hB : BeforeOnlyAdds (m.Before.getD DefaultBefore))
    (hA : AfterOnlyAdds (m.After.getD DefaultAfter)) :
    (r.Header.Get "X-Request-Id" ≠ "" →
      ∀ (l : Logger) (msg : String), Obs.info l msg ∈ (ServeHTTP m rw r next w).trace →
        (⟨"request_id", Value.str (r.Header.Get "X-Request-Id")⟩ : Field) ∈ l.context)
    ∧ (∀ (entry : Logger) (q : Request) (a : String),
        Obs.before entry q a ∈ (ServeHTTP m rw r next w).trace →
        entry.context =
          m.Logger.context ++
            (if r.Header.Get "X-Request-Id" = "" then []
             else [⟨"request_id", Value.str (r.Header.Get "X-Request-Id")⟩]))
    ∧ ((m.Before = some DefaultBefore ∨ m.Before = none) →
        (m.After = some DefaultAfter ∨ m.After = none) →
        ∀ (l : Logger) (msg : String), Obs.info l msg ∈ (ServeHTTP m rw r next w).trace →
          l.context.countP Field.isRequestID =
            m.Logger.context.countP Field.isRequestID
              + (if r.Header.Get "X-Request-Id" = "" then 0 else 1)) := by
  have hm : matchesExcluded m.excludeURLs r.URL.Path = false :=
    (matchesExcluded_eq_false_iff _ _).2 hne
  have ht := ServeHTTP_trace_of_not_excluded m rw r next w hm
  refine ⟨?_, ?_, ?_⟩
  · intro hid l msg hl
    have hpre := ServeHTTP_info_extends_requestLogger m rw r next w hne hB hA l msg hl
    apply hpre.subset
    rw [requestLogger_context]
    simp [hid]
  · intro entry q a
    rw [ht, ← requestLogger_context]
    cases next rw r (m.clock.Now w).2 <;> cases m.logStarting <;>
      cases rw.isNegroni <;> cases m.logCompleted <;> simp <;> intro h _ _ <;> rw [h]
  · intro hB2 hA2 l msg hl
    have hB3 : m.Before.getD DefaultBefore = DefaultBefore := by
      rcases hB2 with h | h <;> simp [h]
    have hA3 : m.After.getD DefaultAfter = DefaultAfter := by
      rcases hA2 with h | h <;> simp [h]
    rw [ht, hB3, hA3] at hl
    have key : l = DefaultBefore (requestLogger m.Logger r) r (resolveRemoteAddr r)
        ∨ ∃ (res : ResponseWriter) (d : Duration),
          l = DefaultAfter (DefaultBefore (requestLogger m.Logger r) r (resolveRemoteAddr r))
            res d m.Name := by
      cases hn : next rw r (m.clock.Now w).2 <;> cases hs : m.logStarting <;>
        cases hg : rw.isNegroni <;> cases hc : m.logCompleted <;>
        simp [hn, hs, hg, hc] at hl <;>
        first
          | exact Or.inl hl.1
          | exact Or.inr ⟨_, _, hl.1⟩
          | exact hl.elim (fun h => Or.inl h.1) (fun h => Or.inr ⟨_, _, h.1⟩)
    have hk1 : (DefaultBefore (requestLogger m.Logger r) r (resolveRemoteAddr r)).context.countP
        Field.isRequestID =
          m.Logger.context.countP Field.isRequestID
            + (if r.Header.Get "X-Request-Id" = "" then 0 else 1) := by
      have e : (DefaultBefore (requestLogger m.Logger r) r (resolveRemoteAddr r)).context =
          (requestLogger m.Logger r).context ++
            [⟨"request", Value.str r.RequestURI⟩, ⟨"method", Value.str r.Method⟩,
              ⟨"remote", Value.str (resolveRemoteAddr r)⟩] := by
        simp [DefaultBefore, Context.Logger, Context.Str, Logger.With]
      rw [e, requestLogger_context]
      by_cases h : r.Header.Get "X-Request-Id" = "" <;>
        simp [h, List.countP_cons, Field.isRequestID]
    rcases key with h | ⟨res, d, h⟩
    · rw [h, hk1]
    · have e : (DefaultAfter (DefaultBefore (requestLogger m.Logger r) r (resolveRemoteAddr r))
          res d m.Name).context =
          (DefaultBefore (requestLogger m.Logger r) r (resolveRemoteAddr r)).context ++
            [⟨"status", Value.int res.Status⟩,
              ⟨"text_status", Value.str (StatusText res.Status)⟩,
              ⟨"took", Value.dur d⟩,
              ⟨"measure#" ++ m.Name ++ ".latency", Value.int64 d.Nanoseconds⟩] := by
        simp [DefaultAfter, Context.Logger, Context.Int64, Context.Dur, Context.Str,
          Context.Int, Logger.With]
      rw [h, e, List.countP_append, hk1]
      simp [List.countP_cons, Field.isRequestID, measureKey_ne_request_id]

theorem ServeHTTP_request_id_field_witness :
    getOrders.URL.Path ∉ ExcludedURLs svc
    ∧ getOrders.Header.Get "X-Request-Id" ≠ ""
    ∧ ∀ (l : Logger) (msg : String),
        Obs.info l msg
          ∈ (ServeHTTP svc negroniWriter getOrders (respondAfter 404 250000000) 1000).trace →
        (⟨"request_id", Value.str "abc123"⟩ : Field) ∈ l.context :=
  ⟨by decide, by decide,
    (ServeHTTP_request_id_field svc negroniWriter getOrders (respondAfter 404 250000000) 1000
      (by decide) DefaultBefore_onlyAdds DefaultAfter_onlyAdds).1 (by decide)⟩

/-- The canonical form of the key `X-Real-IP`. -/
theorem canonical_X_Real_IP : CanonicalMIMEHeaderKey "X-Real-IP" = "X-Real-Ip" := by
  decide

/-- The key `X-Request-Id` is its own canonical form. -/
theorem canonical_X_Request_Id : CanonicalMIMEHeaderKey "X-Request-Id" = "X-Request-Id" := by
  decide

/-- C8: for every request whose path is not excluded, `ServeHTTP` calls the
Before hook exactly once, on the request itself, and the remote address it
passes is the value of the header `X-Real-IP` when that value is not empty and
the connection's `RemoteAddr` otherwise; the default Before hook records it as
the field `remote`, which the "started handling request" event then carries.
The value of the header is what `Get` answers: the first value stored under the
canonical key `X-Real-Ip`, and the empty string when there is none. -/
theorem ServeHTTP_remote_address {σ : Type} (m : Middleware σ)
    (rw : ResponseWriter) (r : Request) (next : HandlerFunc σ) (w : σ)
    (hne : r.URL.Path ∉ ExcludedURLs m) :
    (∃ pre post : List Obs,
      (ServeHTTP m rw r next w).trace =
        pre ++ Obs.before (requestLogger m.Logger r) r
          (if r.Header.Get "X-Real-IP" = "" then r.RemoteAddr
           else r.Header.Get "X-Real-IP") :: post
      ∧ (∀ o ∈ pre ++ post, o.isHook = false ∨ ∃ e res d n, o = Obs.after e res d n))
    ∧ (∀ (entry : Logger) (q : Request) (a : String),
        Obs.before entry q a ∈ (ServeHTTP m rw r next w).trace →
        q = r ∧ a = (if r.Header.Get "X-Real-IP" = "" then r.RemoteAddr
                     else r.Header.Get "X-Real-IP"))
    ∧ (∀ (entry : Logger) (a : String),
        (⟨"remote", Value.str a⟩ : Field) ∈ (DefaultBefore entry r a).context)
    ∧ ((m.Before = some DefaultBefore ∨ m.Before = none) →
        ∀ l : Logger,
          Obs.info l "started handling request" ∈ (ServeHTTP m rw r next w).trace →
          (⟨"remote", Value.str (if r.Header.Get "X-Real-IP" = "" then r.RemoteAddr
              else r.Header.Get "X-Real-IP")⟩ : Field) ∈ l.context)
    ∧ r.Header.Get "X-Real-IP" =
        (match r.Header.entries.lookup "X-Real-Ip" with
          | some (v :: _) => v
          | _ => "") := by
  have hm : matchesExcluded m.excludeURLs r.URL.Path = false :=
    (matchesExcluded_eq_false_iff _ _).2 hne
  have ht := ServeHTTP_trace_of_not_excluded m rw r next w hm
  have hr : resolveRemoteAddr r =
      (if r.Header.Get "X-Real-IP" = "" then r.RemoteAddr else r.Header.Get "X-Real-IP") := by
    unfold resolveRemoteAddr
    by_cases h : r.Header.Get "X-Real-IP" = "" <;> simp [h]
  rw [hr] at ht
  refine ⟨⟨[Obs.now (m.clock.Now w).1], _, by rw [ht]; simp only [List.append_assoc,
    List.cons_append, List.nil_append, List.singleton_append]; rfl, ?_⟩, ?_, ?_, ?_,
    by rw [Header.Get, canonical_X_Real_IP]⟩
  · cases next rw r (m.clock.Now w).2 <;> cases m.logStarting <;>
      cases rw.isNegroni <;> cases m.logCompleted <;> simp [Obs.isHook]
  · intro entry q a
    rw [ht]
    cases next rw r (m.clock.Now w).2 <;> cases m.logStarting <;>
      cases rw.isNegroni <;> cases m.logCompleted <;> simp
  · intro entry a
    simp [DefaultBefore, Context.Logger, Context.Str, Logger.With]
  · intro hB l
    have hB2 : m.Before.getD DefaultBefore = DefaultBefore := by
      rcases hB with h | h <;> simp [h]
    rw [ht, hB2]
    intro hl
    have key : l = DefaultBefore (requestLogger m.Logger r) r
        (if r.Header.Get "X-Real-IP" = "" then r.RemoteAddr
         else r.Header.Get "X-Real-IP") := by
      cases hn : next rw r (m.clock.Now w).2 <;> cases hs : m.logStarting <;>
        cases hg : rw.isNegroni <;> cases hc : m.logCompleted <;>
        simp [hn, hs, hg, hc] at hl <;> exact hl
    rw [key]
    simp [DefaultBefore, Context.Logger, Context.Str, Logger.With]

theorem ServeHTTP_remote_address_witness :
    getOrders.URL.Path ∉ ExcludedURLs svc
    ∧ getOrders.Header.Get "X-Real-IP" = "1.2.3.4"
    ∧ getOrders.RemoteAddr = "5.6.7.8"
    ∧ (∀ (entry : Logger) (q : Request) (a : String),
        Obs.before entry q a
          ∈ (ServeHTTP svc negroniWriter getOrders (respondAfter 404 250000000) 1000).trace →
        q = getOrders ∧ a = "1.2.3.4")
    ∧ (∀ l : Logger,
        Obs.info l "started handling request"
          ∈ (ServeHTTP svc negroniWriter getOrders (respondAfter 404 250000000) 1000).trace →
        (⟨"remote", Value.str "1.2.3.4"⟩ : Field) ∈ l.context)
    ∧ getOrders.Header.entries.lookup "X-Real-Ip" = some ["1.2.3.4"]
    ∧ resolveRemoteAddr getOrdersBare = "5.6.7.8" :=
  ⟨by decide, by decide, by decide,
    (ServeHTTP_remote_address svc negroniWriter getOrders (respondAfter 404 250000000) 1000
      (by decide)).2.1,
    (ServeHTTP_remote_address svc negroniWriter getOrders (respondAfter 404 250000000) 1000
      (by decide)).2.2.2.1 (Or.inl rfl),
    by decide, by decide⟩

/-! ## Panics -/

/-- C9 (as stated, refuted): the middleware "svc" with the default hooks, the
request `GET /orders` and a `next` that returns normally, handed a response
writer that is not a `negroni.ResponseWriter`: `ServeHTTP` calls `next`, reads
`Since`, and panics on the type assertion, with log-completed enabled and with
log-completed disabled alike. -/
theorem ServeHTTP_never_panics_counterexample :
    getOrders.URL.Path ∉ ExcludedURLs svc
    ∧ svc.Before = some DefaultBefore ∧ svc.After = some DefaultAfter
    ∧ (respondAfter 200 5 plainWriter getOrders (svc.clock.Now 1000).2).isSome = true
    ∧ (ServeHTTP svc plainWriter getOrders (respondAfter 200 5) 1000).outcome
        = Outcome.panicked
    ∧ (ServeHTTP (SetLogCompleted svc false) plainWriter getOrders
        (respondAfter 200 5) 1000).outcome = Outcome.panicked
    ∧ (ServeHTTP (SetLogCompleted svc false) plainWriter getOrders
        (respondAfter 200 5) 1000).trace
        = [Obs.now 1000,
            Obs.before (requestLogger svc.Logger getOrders) getOrders "1.2.3.4",
            Obs.info (DefaultBefore (requestLogger svc.Logger getOrders) getOrders "1.2.3.4")
              "started handling request",
            Obs.next plainWriter getOrders,
            Obs.since 1000 5] :=
  ⟨by decide, rfl, rfl, by decide, by decide, by decide, by decide⟩

/-- C9 (amended): for every middleware configuration with the default hooks
(set or left unset; any flags, any exclusion list), every request, with or
without the two headers, and every response writer that is a
`negroni.ResponseWriter`, `ServeHTTP` returns normally whenever the call of
`next` it makes does, log-completed enabled or not; on an excluded path this
holds for every response writer. -/
theorem ServeHTTP_returns_on_negroni_writer {σ : Type} (m : Middleware σ)
    (rw : ResponseWriter) (r : Request) (next : HandlerFunc σ) (w : σ)
    (_hB : m.Before = some DefaultBefore ∨ m.Before = none)
    (_hA : m.After = some DefaultAfter ∨ m.After = none)
    (hrw : rw.isNegroni = true ∨ r.URL.Path ∈ ExcludedURLs m)
    (hnext : (next rw r
      (if r.URL.Path ∈ ExcludedURLs m then w else (m.clock.Now w).2)).isSome = true) :
    (ServeHTTP m rw r next w).outcome = Outcome.returned := by
  by_cases hex : r.URL.Path ∈ ExcludedURLs m
  · rw [if_pos hex] at hnext
    have hm : matchesExcluded m.excludeURLs r.URL.Path = true :=
      (matchesExcluded_eq_true_iff _ _).2 hex
    rw [(ServeHTTP_of_excluded m rw r next w hm).2.1, if_pos hnext]
  · rw [if_neg hex] at hnext
    have hm : matchesExcluded m.excludeURLs r.URL.Path = false :=
      (matchesExcluded_eq_false_iff _ _).2 hex
    have hg : rw.isNegroni = true := hrw.resolve_right hex
    rw [ServeHTTP_outcome_of_not_excluded m rw r next w hm, hnext, hg]
    rfl

theorem ServeHTTP_returns_on_negroni_writer_witness :
    (negroniWriter.isNegroni = true ∨ getOrders.URL.Path ∈ ExcludedURLs svc)
    ∧ (ServeHTTP (SetLogCompleted svc false) negroniWriter getOrders
        (respondAfter 404 250000000) 1000).outcome = Outcome.returned :=
  ⟨Or.inl rfl,
    ServeHTTP_returns_on_negroni_writer (SetLogCompleted svc false) negroniWriter getOrders
      (respondAfter 404 250000000) 1000 (Or.inl rfl) (Or.inl rfl) (Or.inl rfl) (by decide)⟩

end NegroniZerolog
